import Mathlib

/-!
Verification development for a JSON codec core (Rust sources
src/datetime.rs and src/decode.rs): a shallow embedding of the calendar
formatter and of the decode engine, together with theorems checking the
natural-language specification against the code.

Byte buffers are modelled as lists of byte values (Nat); the fixed
32-byte `heapless` buffer capacity is treated by proving length bounds
on the produced lists (all buffer operations are pure appends, so a
final length bound entails that every intermediate push fits).
-/

set_option autoImplicit false

namespace Orjson

/-! ### Byte constants (datetime.rs lines 8-14) -/

def HYPHEN : Nat := 45
def PLUS : Nat := 43
def ZERO : Nat := 48
def T : Nat := 84
def COLON : Nat := 58
def PERIOD : Nat := 46
def Z : Nat := 90

/-! ### Decimal formatting (the itoa crate: minimal decimal digits) -/

/-- Decimal digits of a natural number, most significant first, as ASCII
bytes.  Fuel-indexed so that it is structurally recursive; `itoa` supplies
enough fuel for any input. -/
def itoaAux : Nat → Nat → List Nat
  | 0, _ => []
  | fuel + 1, n => if n < 10 then [ZERO + n] else itoaAux fuel (n / 10) ++ [ZERO + n % 10]

/-- Decimal ASCII rendering of a natural number (the itoa crate's format). -/
def itoa (n : Nat) : List Nat :=
  itoaAux (n + 1) n

/-- Decimal ASCII rendering of a signed integer: a leading hyphen for
negative values, then the digits of the absolute value. -/
def itoaInt (v : Int) : List Nat :=
  if v < 0 then HYPHEN :: itoa (-v).toNat else itoa v.toNat

/-- write_double_digit! macro (datetime.rs lines 18-26): a leading zero when
the value is below ten, then its decimal digits. -/
def writeDoubleDigit (v : Nat) : List Nat :=
  (if v < 10 then [ZERO] else []) ++ itoa v

/-- write_double_digit! at a signed (i32) value, as used for the offset
hour and minute fields. -/
def writeDoubleDigitInt (v : Int) : List Nat :=
  (if v < 10 then [ZERO] else []) ++ itoaInt v

/-- write_microsecond! macro (datetime.rs lines 28-39): nothing when the
microsecond value is zero, else a period, zero-padding up to six digits,
and the decimal digits of the value. -/
def writeMicrosecond (m : Nat) : List Nat :=
  if m ≠ 0 then PERIOD :: (List.replicate (6 - (itoa m).length) ZERO ++ itoa m) else []

/-! ### Format options

Modelled from the spec: the option bitset (crate::opt, not under src/) is
"a bitset controlling three independent switches"; the formatter code only
ever tests each flag with `opts & FLAG == FLAG`, so the bitset is embedded
as a record of the three independent Boolean switches. -/

structure Opt where
  omit_microseconds : Bool
  naive_utc : Bool
  utc_z : Bool
deriving DecidableEq

/-! ### Temporal value views

The Rust formatters read the host (CPython) date/time objects through FFI
accessors; the embedding replaces the raw pointer by a read-only view
recording exactly what those accessors would return. -/

structure PyDate where
  year : Nat
  month : Nat
  day : Nat
deriving DecidableEq

structure PyTime where
  hour : Nat
  minute : Nat
  second : Nat
  microsecond : Nat
  hastzinfo : Bool
deriving DecidableEq

/-- A signed duration as returned by the host's utcoffset() accessors:
PyDateTime_DELTA_GET_DAYS and PyDateTime_DELTA_GET_SECONDS, both read as
i32 by the code. -/
structure Delta where
  days : Int
  seconds : Int
deriving DecidableEq

/-- View of an attached timezone-info object: which of the three
duck-typed capabilities it exposes (attribute probes on CONVERT_METHOD_STR,
NORMALIZE_METHOD_STR, DST_STR), and the utcoffset results the two
tzinfo-side protocols would produce for the datetime being formatted. -/
structure TzInfo where
  hasConvert : Bool
  hasNormalize : Bool
  hasDst : Bool
  normalizedUtcoffset : Delta
  utcoffsetWithArg : Delta
deriving DecidableEq

/-- View of a host datetime value: its calendar fields, its optional
timezone-info object, and the result its own utcoffset() method would
return (used by the "conversion capability" protocol branch). -/
structure PyDateTime where
  year : Nat
  month : Nat
  day : Nat
  hour : Nat
  minute : Nat
  second : Nat
  microsecond : Nat
  tzinfo : Option TzInfo
  utcoffset : Delta
deriving DecidableEq

/-- The hastzinfo flag of a datetime (consistent with the tzinfo slot in
the host object layout). -/
def has_tz (dt : PyDateTime) : Bool :=
  dt.tzinfo.isSome

/-! ### Date (datetime.rs lines 41-67) -/

structure Date where
  ptr : PyDate

def Date.new (ptr : PyDate) : Date :=
  ⟨ptr⟩

/-- Date::write_buf (datetime.rs lines 50-66): year digits, hyphen,
two-digit month, hyphen, two-digit day. -/
def Date.write_buf (self : Date) : List Nat :=
  itoa self.ptr.year ++ [HYPHEN] ++ writeDoubleDigit self.ptr.month
    ++ [HYPHEN] ++ writeDoubleDigit self.ptr.day

/-! ### Time (datetime.rs lines 79-118) -/

inductive TimeError where
  | HasTimezone
deriving DecidableEq

structure Time where
  ptr : PyTime
  opts : Opt

/-- Time::new (datetime.rs lines 89-97): rejects values carrying timezone
information before any formatting can happen. -/
def Time.new (ptr : PyTime) (opts : Opt) : Except TimeError Time :=
  if ptr.hastzinfo then Except.error TimeError.HasTimezone
  else Except.ok ⟨ptr, opts⟩

/-- Time::write_buf (datetime.rs lines 98-117): HH:MM:SS, then the
microsecond suffix unless OMIT_MICROSECONDS is set. -/
def Time.write_buf (self : Time) : List Nat :=
  writeDoubleDigit self.ptr.hour ++ [COLON] ++ writeDoubleDigit self.ptr.minute
    ++ [COLON] ++ writeDoubleDigit self.ptr.second
    ++ (if self.opts.omit_microseconds = false then writeMicrosecond self.ptr.microsecond else [])

/-! ### DateTime (datetime.rs lines 131-278) -/

inductive DateTimeError where
  | LibraryUnsupported
deriving DecidableEq

structure DateTime where
  ptr : PyDateTime
  opts : Opt

def DateTime.new (ptr : PyDateTime) (opts : Opt) : DateTime :=
  ⟨ptr, opts⟩

/-- Offset determination of DateTime::write_buf (datetime.rs lines
148-193): a naive value has offset (0, 0); an aware value is probed for
the "conversion" capability (calling the datetime's own utcoffset), then
the "normalize" capability (calling normalize(dt).utcoffset()), then the
"daylight-saving" capability (calling tzinfo.utcoffset(dt)); with no
recognized capability the formatter fails with LibraryUnsupported.
Returns (offset_day, offset_second) as read by the two DELTA accessors. -/
def resolveOffset (dt : PyDateTime) : Except DateTimeError (Int × Int) :=
  match dt.tzinfo with
  | none => Except.ok (0, 0)
  | some tz =>
    if tz.hasConvert then Except.ok (dt.utcoffset.days, dt.utcoffset.seconds)
    else if tz.hasNormalize then
      Except.ok (tz.normalizedUtcoffset.days, tz.normalizedUtcoffset.seconds)
    else if tz.hasDst then
      Except.ok (tz.utcoffsetWithArg.days, tz.utcoffsetWithArg.seconds)
    else Except.error DateTimeError.LibraryUnsupported

/-- Body of DateTime::write_buf (datetime.rs lines 195-229): date, 'T',
time, and the microsecond suffix unless OMIT_MICROSECONDS is set. -/
def writeBody (dt : PyDateTime) (opts : Opt) : List Nat :=
  itoa dt.year ++ [HYPHEN] ++ writeDoubleDigit dt.month ++ [HYPHEN] ++ writeDoubleDigit dt.day
    ++ [T] ++ writeDoubleDigit dt.hour ++ [COLON] ++ writeDoubleDigit dt.minute
    ++ [COLON] ++ writeDoubleDigit dt.second
    ++ (if opts.omit_microseconds = false then writeMicrosecond dt.microsecond else [])

/-- Hour/minute digits of a non-zero offset (datetime.rs lines 247-274),
applied to the already sign-corrected second count: offset_minute and
offset_hour by integer division, the hour printed double-digit, a colon,
and the minute with the sub-minute remainder rounded to the nearest
minute (printed value only). -/
def offsetHM (s : Int) : List Nat :=
  writeDoubleDigitInt ((s.tdiv 60).tdiv 60) ++ [COLON] ++
    writeDoubleDigitInt
      (if s - ((s.tdiv 60).tmod 60 * 60 + (s.tdiv 60).tdiv 60 * 3600) ≥ 30 then
        (s.tdiv 60).tmod 60 + 1
      else (s.tdiv 60).tmod 60)

/-- Offset suffix of DateTime::write_buf (datetime.rs lines 231-275):
for a zero second count, 'Z' under UTC_Z else "+00:00"; otherwise a sign
(hyphen exactly when offset_day is -1, with the second count corrected to
86400 - offset_second in that case) followed by the hour/minute digits. -/
def offsetSuffix (opts : Opt) (offset_day offset_second : Int) : List Nat :=
  if offset_second = 0 then
    (if opts.utc_z then [Z] else [PLUS, ZERO, ZERO, COLON, ZERO, ZERO])
  else
    (if offset_day = -1 then HYPHEN else PLUS) ::
      offsetHM (if offset_day = -1 then 86400 - offset_second else offset_second)

/-- DateTime::write_buf (datetime.rs lines 147-278): resolve the offset
first (failing with LibraryUnsupported and producing no output when no
protocol matches), write the body, and append the offset suffix exactly
when the value is aware or NAIVE_UTC is set. -/
def DateTime.write_buf (self : DateTime) : Except DateTimeError (List Nat) :=
  match resolveOffset self.ptr with
  | Except.error e => Except.error e
  | Except.ok (offset_day, offset_second) =>
    Except.ok (writeBody self.ptr self.opts ++
      (if has_tz self.ptr || self.opts.naive_utc then
        offsetSuffix self.opts offset_day offset_second
      else []))

/-! ### Decode engine (decode.rs)

The decoder is embedded with an explicit state for the host string heap
(object identity of constructed key strings) and the process-wide
interned-key cache.  Two external collaborators are modelled as
parameters: the seeded 64-bit wyhash of raw key bytes (the wyhash crate)
and the host's native string hash (hash_str); every theorem below holds
for every choice of these functions. -/

/-- One occupied slot of the interned-key cache: the stored wyhash key,
the id of the cached host string object, and its memoized native hash
(CachedKey, decode.rs lines 20-42, keyed by u64 as in KeyMap line 50). -/
structure Slot where
  wyh : Nat
  objId : Nat
  pyhash : Int
deriving DecidableEq

/-- Decoder-visible mutable state: a fresh-id counter and content map for
host string objects constructed for keys, and the 512-slot interned-key
cache (KEY_MAP, decode.rs lines 50-55).  The cache is process-wide: it is
threaded through and across deserialize calls. -/
structure St where
  nextId : Nat
  heap : List (Nat × List Nat)
  cache : Nat → Option Slot

/-- Initial process state: empty heap, all 512 cache slots empty. -/
def initSt : St :=
  ⟨0, [], fun _ => none⟩

/-- Construction of a fresh host string object (str_to_pyobject): a new
object id bound to the given content. -/
def newStr (st : St) (s : List Nat) : Nat × St :=
  (st.nextId, ⟨st.nextId + 1, (st.nextId, s) :: st.heap, st.cache⟩)

/-- Content of a host string object. -/
def heapGet (st : St) (id : Nat) : Option (List Nat) :=
  st.heap.lookup id

/-- Key resolution of JsonValue::visit_map (decode.rs lines 199-219).
A key longer than 64 bytes is constructed fresh with its native hash
computed on the spot, without touching the cache.  A short key is hashed
with wyhash and looked up in the interned-key cache at the slot given by
the secondary hash sh masked to the 512-slot index space (the
associative_cache crate's HashDirectMapped placement); on a hit (slot
occupied and stored wyhash equal) the cached object id and memoized
native hash are returned unchanged; on a miss or collision a fresh
string is constructed, its native hash computed once, and the slot
overwritten (round-robin eviction). -/
def resolveKey (wy : List Nat → Nat) (sh : Nat → Nat) (hs : List Nat → Int)
    (key : List Nat) (st : St) : (Nat × Int) × St :=
  if key.length > 64 then
    let p := newStr st key
    ((p.1, hs key), p.2)
  else
    let h := wy key
    let idx := sh h % 512
    match st.cache idx with
    | some slot =>
      if slot.wyh = h then ((slot.objId, slot.pyhash), st)
      else
        let p := newStr st key
        let ph := hs key
        ((p.1, ph),
          { p.2 with cache := fun i => if i = idx then some ⟨h, p.1, ph⟩ else p.2.cache i })
    | none =>
      let p := newStr st key
      let ph := hs key
      ((p.1, ph),
        { p.2 with cache := fun i => if i = idx then some ⟨h, p.1, ph⟩ else p.2.cache i })

/-- Host values produced by the visitor (JsonValue, decode.rs lines
104-227): singletons, integers, floats (kept as the raw literal token),
strings, lists, and dicts whose keys are host string object ids. -/
inductive PyVal where
  | none_ : PyVal
  | bool : Bool → PyVal
  | int : Int → PyVal
  | float : List Nat → PyVal
  | str : List Nat → PyVal
  | list : List PyVal → PyVal
  | dict : List (Nat × PyVal) → PyVal

/-- Dict insertion with a precomputed hash (_PyDict_SetItem_KnownHash,
decode.rs line 221): replaces the value of an existing entry whose key
text is equal (keeping the original key object), else appends. -/
def dictSet (st : St) (entries : List (Nat × PyVal)) (kid : Nat) (v : PyVal) :
    List (Nat × PyVal) :=
  if entries.any (fun e => heapGet st e.1 == heapGet st kid) then
    entries.map (fun e => if heapGet st e.1 == heapGet st kid then (e.1, v) else e)
  else entries ++ [(kid, v)]

/-! ### JSON text layer

Modelled from the spec: the token layer is the external serde_json
deserialization framework ("a recursive-descent, push-style JSON parser
driven by a generic deserialization framework"); it is embedded as a
recursive-descent parser over the byte list, returning the visited value
and the unconsumed rest, with Deserializer::end accepting only trailing
whitespace. -/

def isWs (c : Nat) : Bool :=
  c == 32 || c == 9 || c == 10 || c == 13

def isDigit (c : Nat) : Bool :=
  48 ≤ c && c ≤ 57

def natOfDigits (ds : List Nat) : Nat :=
  ds.foldl (fun a c => a * 10 + (c - 48)) 0

def hexVal (c : Nat) : Option Nat :=
  if 48 ≤ c && c ≤ 57 then some (c - 48)
  else if 97 ≤ c && c ≤ 102 then some (c - 87)
  else if 65 ≤ c && c ≤ 70 then some (c - 55)
  else none

/-- UTF-8 encoding of a scalar value. -/
def utf8Encode (cp : Nat) : List Nat :=
  if cp < 128 then [cp]
  else if cp < 2048 then [192 + cp / 64, 128 + cp % 64]
  else if cp < 65536 then [224 + cp / 4096, 128 + cp / 64 % 64, 128 + cp % 64]
  else [240 + cp / 262144, 128 + cp / 4096 % 64, 128 + cp / 64 % 64, 128 + cp % 64]

/-- String-literal body scanner: consumes bytes after the opening quote
up to and including the closing quote, handling the JSON escapes,
rejecting raw control bytes below 0x20 and malformed or lone-surrogate
unicode escapes; returns the unescaped content bytes and the rest. -/
def parseStringAux : List Nat → Option (List Nat × List Nat)
  | [] => none
  | 34 :: rest => some ([], rest)
  | 92 :: 34 :: rest => (parseStringAux rest).map (fun p => (34 :: p.1, p.2))
  | 92 :: 92 :: rest => (parseStringAux rest).map (fun p => (92 :: p.1, p.2))
  | 92 :: 47 :: rest => (parseStringAux rest).map (fun p => (47 :: p.1, p.2))
  | 92 :: 98 :: rest => (parseStringAux rest).map (fun p => (8 :: p.1, p.2))
  | 92 :: 102 :: rest => (parseStringAux rest).map (fun p => (12 :: p.1, p.2))
  | 92 :: 110 :: rest => (parseStringAux rest).map (fun p => (10 :: p.1, p.2))
  | 92 :: 114 :: rest => (parseStringAux rest).map (fun p => (13 :: p.1, p.2))
  | 92 :: 116 :: rest => (parseStringAux rest).map (fun p => (9 :: p.1, p.2))
  | 92 :: 117 :: a :: b :: c :: d :: rest =>
    match hexVal a, hexVal b, hexVal c, hexVal d with
    | some ha, some hb, some hc, some hd =>
      let cp := ha * 4096 + hb * 256 + hc * 16 + hd
      if cp < 55296 || 57344 ≤ cp then
        (parseStringAux rest).map (fun p => (utf8Encode cp ++ p.1, p.2))
      else if cp < 56320 then
        match rest with
        | 92 :: 117 :: a2 :: b2 :: c2 :: d2 :: rest2 =>
          match hexVal a2, hexVal b2, hexVal c2, hexVal d2 with
          | some ha2, some hb2, some hc2, some hd2 =>
            let lo := ha2 * 4096 + hb2 * 256 + hc2 * 16 + hd2
            if 56320 ≤ lo && lo < 57344 then
              (parseStringAux rest2).map
                (fun p => (utf8Encode (65536 + (cp - 55296) * 1024 + (lo - 56320)) ++ p.1, p.2))
            else none
          | _, _, _, _ => none
        | _ => none
      else none
    | _, _, _, _ => none
  | 92 :: _ :: _ => none
  | 92 :: [] => none
  | c :: rest =>
    if c < 32 then none
    else (parseStringAux rest).map (fun p => (c :: p.1, p.2))

/-- Number-literal scanner: optional minus, integer part without leading
zeros, optional fraction and exponent.  A purely integral literal becomes
a host integer when it fits i64/u64 (visit_i64/visit_u64), and falls back
to a float otherwise; a fractional or exponential literal becomes a float
(visit_f64), kept as its raw token bytes. -/
def parseNumber (input : List Nat) : Option (PyVal × List Nat) :=
  let neg := match input with | 45 :: _ => true | _ => false
  let l1 := match input with | 45 :: r => r | _ => input
  match l1 with
  | [] => none
  | c :: r =>
    if ¬ isDigit c then none
    else if c = 48 && (match r with | d :: _ => isDigit d | [] => false) then none
    else
      let ds := l1.takeWhile isDigit
      let r2 := l1.dropWhile isDigit
      let fracDs := match r2 with
        | 46 :: r3 => some (r3.takeWhile isDigit, r3.dropWhile isDigit)
        | _ => none
      match r2, fracDs with
      | 46 :: _, some ([], _) => none
      | 46 :: _, some (fds, r4) =>
        match parseExp r4 with
        | none => none
        | some (eds, r5) =>
          some (PyVal.float (tok neg ds (some fds) eds), r5)
      | _, _ =>
        match parseExp r2 with
        | none => none
        | some (some eds, r5) => some (PyVal.float (tok neg ds none (some eds)), r5)
        | some (none, r5) =>
          let n := natOfDigits ds
          if neg then
            if n ≤ 9223372036854775808 then some (PyVal.int (-(n : Int)), r5)
            else some (PyVal.float (tok neg ds none none), r5)
          else
            if n < 18446744073709551616 then some (PyVal.int (n : Int), r5)
            else some (PyVal.float (tok neg ds none none), r5)
where
  parseExp (l : List Nat) : Option (Option (List Nat) × List Nat) :=
    match l with
    | 101 :: r | 69 :: r =>
      let sgn := match r with | 43 :: _ => true | 45 :: _ => true | _ => false
      let r1 := if sgn then r.drop 1 else r
      match r1.takeWhile isDigit with
      | [] => none
      | eds => some (some eds, r1.dropWhile isDigit)
    | _ => some (none, l)
  tok (neg : Bool) (ds : List Nat) (fds : Option (List Nat)) (eds : Option (List Nat)) :
      List Nat :=
    (if neg then [45] else []) ++ ds
      ++ (match fds with | some f => 46 :: f | none => [])
      ++ (match eds with | some e => 101 :: e | none => [])

mutual

/-- Visit one JSON value (DeserializeSeed/Visitor for JsonValue,
decode.rs lines 107-227, over the modelled token layer): returns the
constructed host value, the updated state, and the unconsumed input. -/
def parseVal (wy : List Nat → Nat) (sh : Nat → Nat) (hs : List Nat → Int) :
    Nat → St → List Nat → Option ((PyVal × St) × List Nat)
  | 0, _, _ => none
  | fuel + 1, st, input =>
    match input.dropWhile isWs with
    | 110 :: 117 :: 108 :: 108 :: rest => some ((PyVal.none_, st), rest)
    | 116 :: 114 :: 117 :: 101 :: rest => some ((PyVal.bool true, st), rest)
    | 102 :: 97 :: 108 :: 115 :: 101 :: rest => some ((PyVal.bool false, st), rest)
    | 34 :: rest => (parseStringAux rest).map (fun p => ((PyVal.str p.1, st), p.2))
    | 91 :: rest =>
      (match rest.dropWhile isWs with
       | 93 :: r2 => some ((PyVal.list [], st), r2)
       | _ => parseElems wy sh hs fuel st rest [])
    | 123 :: rest =>
      (match rest.dropWhile isWs with
       | 125 :: r2 => some ((PyVal.dict [], st), r2)
       | _ => parseMembers wy sh hs fuel st rest [])
    | c :: rest =>
      if c = 45 || isDigit c then
        (parseNumber (c :: rest)).map (fun p => ((p.1, st), p.2))
      else none
    | [] => none

/-- Array element loop of visit_seq (decode.rs lines 178-191): elements
accumulated, then one host list built from them. -/
def parseElems (wy : List Nat → Nat) (sh : Nat → Nat) (hs : List Nat → Int) :
    Nat → St → List Nat → List PyVal → Option ((PyVal × St) × List Nat)
  | 0, _, _, _ => none
  | fuel + 1, st, input, acc =>
    match parseVal wy sh hs fuel st input with
    | none => none
    | some ((v, st1), rest) =>
      match rest.dropWhile isWs with
      | 44 :: r2 => parseElems wy sh hs fuel st1 r2 (acc ++ [v])
      | 93 :: r2 => some ((PyVal.list (acc ++ [v]), st1), r2)
      | _ => none

/-- Object member loop of visit_map (decode.rs lines 193-227): each key is
read as a string, resolved through resolveKey, the value parsed
recursively, and the pair inserted with the precomputed hash. -/
def parseMembers (wy : List Nat → Nat) (sh : Nat → Nat) (hs : List Nat → Int) :
    Nat → St → List Nat → List (Nat × PyVal) → Option ((PyVal × St) × List Nat)
  | 0, _, _, _ => none
  | fuel + 1, st, input, acc =>
    match input.dropWhile isWs with
    | 34 :: r1 =>
      (match parseStringAux r1 with
       | none => none
       | some (key, r2) =>
         let kh := resolveKey wy sh hs key st
         match r2.dropWhile isWs with
         | 58 :: r3 =>
           (match parseVal wy sh hs fuel kh.2 r3 with
            | none => none
            | some ((v, st2), r4) =>
              let acc2 := dictSet st2 acc kh.1.1 v
              match r4.dropWhile isWs with
              | 44 :: r5 => parseMembers wy sh hs fuel st2 r5 acc2
              | 125 :: r5 => some ((PyVal.dict acc2, st2), r5)
              | _ => none)
         | _ => none)
    | _ => none

end

/-- Host inputs accepted by the decode entry point: a str (whose UTF-8
reading may fail for lone surrogates, modelled by none), bytes, a
bytearray, or any other object. -/
inductive PyInput where
  | pystr : Option (List Nat) → PyInput
  | pybytes : List Nat → PyInput
  | pybytearray : List Nat → PyInput
  | other : PyInput
deriving DecidableEq

/-- Errors of the decode entry point, by kind: the canonical
invalid-string error (INVALID_STR), the wrong-input-type error, and
syntax errors, split into parse failures and the trailing-content
failure of Deserializer::end. -/
inductive DecodeError where
  | invalidStr
  | inputType
  | synParse
  | synTrailing
deriving DecidableEq

/-- Length of the longest valid-UTF-8 prefix of a byte list
(encoding_rs::Encoding::utf8_valid_up_to); an incomplete trailing
sequence is not part of the valid prefix. -/
def utf8ValidUpTo : List Nat → Nat
  | [] => 0
  | c :: rest =>
    if c < 128 then 1 + utf8ValidUpTo rest
    else if 194 ≤ c && c ≤ 223 then
      match rest with
      | c2 :: rest2 => if 128 ≤ c2 && c2 ≤ 191 then 2 + utf8ValidUpTo rest2 else 0
      | [] => 0
    else if c = 224 then
      match rest with
      | c2 :: c3 :: rest3 =>
        if (160 ≤ c2 && c2 ≤ 191) && (128 ≤ c3 && c3 ≤ 191) then 3 + utf8ValidUpTo rest3
        else 0
      | _ => 0
    else if (225 ≤ c && c ≤ 236) || c = 238 || c = 239 then
      match rest with
      | c2 :: c3 :: rest3 =>
        if (128 ≤ c2 && c2 ≤ 191) && (128 ≤ c3 && c3 ≤ 191) then 3 + utf8ValidUpTo rest3
        else 0
      | _ => 0
    else if c = 237 then
      match rest with
      | c2 :: c3 :: rest3 =>
        if (128 ≤ c2 && c2 ≤ 159) && (128 ≤ c3 && c3 ≤ 191) then 3 + utf8ValidUpTo rest3
        else 0
      | _ => 0
    else if c = 240 then
      match rest with
      | c2 :: c3 :: c4 :: rest4 =>
        if (144 ≤ c2 && c2 ≤ 191) && (128 ≤ c3 && c3 ≤ 191) && (128 ≤ c4 && c4 ≤ 191) then
          4 + utf8ValidUpTo rest4
        else 0
      | _ => 0
    else if 241 ≤ c && c ≤ 243 then
      match rest with
      | c2 :: c3 :: c4 :: rest4 =>
        if (128 ≤ c2 && c2 ≤ 191) && (128 ≤ c3 && c3 ≤ 191) && (128 ≤ c4 && c4 ≤ 191) then
          4 + utf8ValidUpTo rest4
        else 0
      | _ => 0
    else if c = 244 then
      match rest with
      | c2 :: c3 :: c4 :: rest4 =>
        if (128 ≤ c2 && c2 ≤ 143) && (128 ≤ c3 && c3 ≤ 191) && (128 ≤ c4 && c4 ≤ 191) then
          4 + utf8ValidUpTo rest4
        else 0
      | _ => 0
    else 0

/-- Parse fuel: generous bound on the recursion depth of the modelled
token layer; every recursive call either strictly consumes input or
descends one nesting level, so twice the length plus a constant always
suffices. -/
def parseFuel (b : List Nat) : Nat :=
  2 * b.length + 2

/-- Run of the parse phase shared by all text-like inputs: the root value
is visited, then Deserializer::end requires that only whitespace remains
(deserialize, decode.rs lines 89-101). -/
def runParse (wy : List Nat → Nat) (sh : Nat → Nat) (hs : List Nat → Int)
    (st : St) (b : List Nat) : Except DecodeError (PyVal × St) :=
  match parseVal wy sh hs (parseFuel b) st b with
  | none => Except.error DecodeError.synParse
  | some ((v, st1), rest) =>
    if rest.dropWhile isWs = [] then Except.ok (v, st1)
    else Except.error DecodeError.synTrailing

/-- Decode entry point (deserialize, decode.rs lines 57-102): a str whose
UTF-8 reading fails gives the invalid-string error; bytes and bytearray
are checked to be valid UTF-8 over their full length, failing with the
same canonical error otherwise; any other input type fails with the
wrong-input-type error; then the parse phase runs on the UTF-8 bytes. -/
def deserialize (wy : List Nat → Nat) (sh : Nat → Nat) (hs : List Nat → Int)
    (st : St) (input : PyInput) : Except DecodeError (PyVal × St) :=
  match input with
  | PyInput.pystr none => Except.error DecodeError.invalidStr
  | PyInput.pystr (some b) => runParse wy sh hs st b
  | PyInput.pybytes b =>
    if utf8ValidUpTo b = b.length then runParse wy sh hs st b
    else Except.error DecodeError.invalidStr
  | PyInput.pybytearray b =>
    if utf8ValidUpTo b = b.length then runParse wy sh hs st b
    else Except.error DecodeError.invalidStr
  | PyInput.other => Except.error DecodeError.inputType

/-! ### Specification-side decimal padding

The spec phrases several fields as "zero-padded to exactly k digits";
padk renders the low k decimal digits of a number, most significant
first, and is compared against the code's pad-with-itoa rendering. -/

/-- The k low decimal digits of a natural number as ASCII bytes, zero
padded to exactly k digits (the spec's "zero-padded" field format). -/
def padk : Nat → Nat → List Nat
  | 0, _ => []
  | k + 1, n => padk k (n / 10) ++ [ZERO + n % 10]

/-! ### Concrete example values used by the witnesses -/

def dtNaiveEx : PyDateTime :=
  ⟨2023, 1, 5, 9, 5, 0, 0, none, ⟨0, 0⟩⟩

/-- Timezone object exposing only the "conversion" capability. -/
def tzConvert : TzInfo :=
  ⟨true, false, false, ⟨0, 0⟩, ⟨0, 0⟩⟩

/-- Timezone object exposing only the "normalize" capability, with the
given normalize(dt).utcoffset() result. -/
def tzNormalize (d : Delta) : TzInfo :=
  ⟨false, true, false, d, ⟨0, 0⟩⟩

/-- Timezone object exposing none of the three capabilities. -/
def tzNone : TzInfo :=
  ⟨false, false, false, ⟨0, 0⟩, ⟨0, 0⟩⟩

/-- Aware datetime whose own utcoffset() returns the given delta, with a
conversion-capability timezone attached. -/
def dtAware (d : Delta) : PyDateTime :=
  ⟨2023, 1, 5, 9, 5, 0, 0, some tzConvert, d⟩

def optsPlain : Opt := ⟨false, false, false⟩

def optsNaiveZ : Opt := ⟨false, true, true⟩

/-! ### Digit-rendering lemmas -/

theorem padk_length (k : Nat) : ∀ n : Nat, (padk k n).length = k := by
  induction k with
  | zero => intro n; rfl
  | succ k ih => intro n; simp [padk, ih]

theorem padk_succ_of_lt : ∀ k n : Nat, n < 10 ^ k → padk (k + 1) n = ZERO :: padk k n := by
  intro k
  induction k with
  | zero =>
    intro n h
    have hn : n = 0 := by simpa using h
    subst hn
    rfl
  | succ k ih =>
    intro n h
    have hp : (10 : Nat) ^ (k + 1) = 10 * 10 ^ k := by ring
    have h10 : n / 10 < 10 ^ k := by omega
    calc padk (k + 1 + 1) n = padk (k + 1) (n / 10) ++ [ZERO + n % 10] := rfl
      _ = (ZERO :: padk k (n / 10)) ++ [ZERO + n % 10] := by rw [ih (n / 10) h10]
      _ = ZERO :: padk (k + 1) n := rfl

theorem padk_add_of_lt (j : Nat) : ∀ k n : Nat, n < 10 ^ k →
    padk (k + j) n = List.replicate j ZERO ++ padk k n := by
  induction j with
  | zero => intro k n _; simp
  | succ j ih =>
    intro k n h
    have h' : n < 10 ^ (k + j) :=
      lt_of_lt_of_le h (Nat.pow_le_pow_right (by norm_num) (by omega))
    calc padk (k + (j + 1)) n = padk ((k + j) + 1) n := by rw [show k + (j + 1) = (k + j) + 1 from by omega]
      _ = ZERO :: padk (k + j) n := padk_succ_of_lt (k + j) n h'
      _ = ZERO :: (List.replicate j ZERO ++ padk k n) := by rw [ih k n h]
      _ = List.replicate (j + 1) ZERO ++ padk k n := by simp [List.replicate_succ]

theorem itoaAux_eq_padk : ∀ fuel n : Nat, n < fuel →
    ∃ k, 0 < k ∧ n < 10 ^ k ∧ (k = 1 ∨ 10 ^ (k - 1) ≤ n) ∧ itoaAux fuel n = padk k n := by
  intro fuel
  induction fuel with
  | zero => intro n h; omega
  | succ fuel ih =>
    intro n h
    by_cases h10 : n < 10
    · refine ⟨1, by omega, by simpa using h10, Or.inl rfl, ?_⟩
      have h1 : itoaAux (fuel + 1) n = [ZERO + n] := by simp [itoaAux, h10]
      have h2 : padk 1 n = [ZERO + n % 10] := by simp [padk]
      rw [h1, h2, Nat.mod_eq_of_lt h10]
    · have hfuel : n / 10 < fuel := by omega
      obtain ⟨k, hk0, hklt, hkge, heq⟩ := ih (n / 10) hfuel
      have hp : (10 : Nat) ^ (k + 1) = 10 * 10 ^ k := by ring
      refine ⟨k + 1, by omega, by omega, ?_, ?_⟩
      · right
        have hsub : k + 1 - 1 = k := by omega
        rw [hsub]
        rcases hkge with h1 | hge
        · subst h1; simpa using h10
        · have hq : (10 : Nat) ^ k = 10 ^ (k - 1) * 10 := by
            conv_lhs => rw [show k = (k - 1) + 1 from by omega]
            rw [pow_succ]
          omega
      · have hstep : itoaAux (fuel + 1) n = itoaAux fuel (n / 10) ++ [ZERO + n % 10] := by
          simp [itoaAux, h10]
        rw [hstep, heq]
        rfl

theorem itoa_eq_padk (n : Nat) :
    ∃ k, 0 < k ∧ n < 10 ^ k ∧ (k = 1 ∨ 10 ^ (k - 1) ≤ n) ∧ itoa n = padk k n :=
  itoaAux_eq_padk (n + 1) n (by omega)

theorem itoa_length_le {n m : Nat} (hm : 0 < m) (h : n < 10 ^ m) : (itoa n).length ≤ m := by
  obtain ⟨k, hk0, hklt, hkge, heq⟩ := itoa_eq_padk n
  rw [heq, padk_length]
  rcases hkge with h1 | hge
  · omega
  · have hlt : (10 : Nat) ^ (k - 1) < 10 ^ m := lt_of_le_of_lt hge h
    have := (Nat.pow_lt_pow_iff_right (by norm_num : 1 < 10)).mp hlt
    omega

theorem itoa_small {n : Nat} (h : n < 10) : itoa n = [ZERO + n] := by
  simp [itoa, itoaAux, h]

theorem writeDoubleDigit_eq_padk {v : Nat} (h : v < 100) : writeDoubleDigit v = padk 2 v := by
  by_cases h10 : v < 10
  · have h2 : padk 2 v = [ZERO + v / 10 % 10, ZERO + v % 10] := rfl
    have hv1 : v / 10 % 10 = 0 := by omega
    have hv2 : v % 10 = v := by omega
    rw [writeDoubleDigit, if_pos h10, itoa_small h10, h2, hv1, hv2]
    rfl
  · obtain ⟨k, hk0, hklt, hkge, heq⟩ := itoa_eq_padk v
    have hk2 : k = 2 := by
      rcases hkge with h1 | hge
      · subst h1; simp at hklt; omega
      · have h100 : (10 : Nat) ^ 2 = 100 := by norm_num
        have hup : (10 : Nat) ^ (k - 1) < 10 ^ 2 := by omega
        have hlt2 := (Nat.pow_lt_pow_iff_right (by norm_num : 1 < 10)).mp hup
        have hk1 : k ≠ 1 := by
          intro hk1
          subst hk1
          simp at hklt
          omega
        omega
    rw [writeDoubleDigit, if_neg h10, heq, hk2]
    rfl

theorem writeDoubleDigit_length {v : Nat} (h : v < 100) : (writeDoubleDigit v).length = 2 := by
  rw [writeDoubleDigit_eq_padk h, padk_length]

theorem writeMicrosecond_eq {m : Nat} (h0 : 0 < m) (h : m < 1000000) :
    writeMicrosecond m = PERIOD :: padk 6 m := by
  obtain ⟨k, hk0, hklt, hkge, heq⟩ := itoa_eq_padk m
  have hk6 : k ≤ 6 := by
    rcases hkge with h1 | hge
    · omega
    · have hup : (10 : Nat) ^ (k - 1) < 10 ^ 6 := lt_of_le_of_lt hge (by simpa using h)
      have h1 := (Nat.pow_lt_pow_iff_right (by norm_num : 1 < 10)).mp hup
      omega
  have h6 : padk 6 m = List.replicate (6 - k) ZERO ++ padk k m := by
    have := padk_add_of_lt (6 - k) k m hklt
    rwa [show k + (6 - k) = 6 from by omega] at this
  rw [writeMicrosecond, if_pos (by omega : m ≠ 0), heq, padk_length, h6]

theorem writeMicrosecond_length {m : Nat} (h : m < 1000000) :
    (writeMicrosecond m).length ≤ 7 := by
  by_cases h0 : m = 0
  · subst h0; simp [writeMicrosecond]
  · rw [writeMicrosecond_eq (by omega) h]
    simp [padk_length]

theorem itoaInt_nonneg {v : Int} (h : 0 ≤ v) : itoaInt v = itoa v.toNat := by
  rw [itoaInt, if_neg (by omega)]

theorem writeDoubleDigitInt_nonneg {v : Int} (h : 0 ≤ v) :
    writeDoubleDigitInt v = writeDoubleDigit v.toNat := by
  rw [writeDoubleDigitInt, writeDoubleDigit, itoaInt_nonneg h]
  by_cases h10 : v < 10
  · rw [if_pos h10, if_pos (by omega)]
  · rw [if_neg h10, if_neg (by omega)]

theorem writeDoubleDigitInt_length {v : Int} (h0 : 0 ≤ v) (h : v < 100) :
    (writeDoubleDigitInt v).length = 2 := by
  rw [writeDoubleDigitInt_nonneg h0, writeDoubleDigit_length (by omega)]

/-- Characterization of the offset hour/minute digits on a nonnegative
second count m: the hour is m / 3600, and the printed minute is
m / 60 % 60, incremented exactly when the sub-minute remainder m % 60 is
at least 30. -/
theorem offsetHM_ofNat (m : Nat) :
    offsetHM (m : Int) =
      writeDoubleDigit (m / 60 / 60) ++ [COLON] ++
        writeDoubleDigit (if 30 ≤ m % 60 then m / 60 % 60 + 1 else m / 60 % 60) := by
  have hd1 : Int.tdiv (m : Int) 60 = ((m / 60 : Nat) : Int) := by norm_cast
  have hd2 : Int.tdiv ((m / 60 : Nat) : Int) 60 = ((m / 60 / 60 : Nat) : Int) := by norm_cast
  have hm1 : Int.tmod ((m / 60 : Nat) : Int) 60 = ((m / 60 % 60 : Nat) : Int) := by norm_cast
  rw [offsetHM, hd1, hd2, hm1]
  have hcond : ((m : Int) - (((m / 60 % 60 : Nat) : Int) * 60 + ((m / 60 / 60 : Nat) : Int) * 3600) ≥ 30)
      ↔ 30 ≤ m % 60 := by omega
  by_cases hc : 30 ≤ m % 60
  · rw [if_pos (hcond.mpr hc), if_pos hc,
      writeDoubleDigitInt_nonneg (by omega), writeDoubleDigitInt_nonneg (by omega)]
    have e1 : (((m / 60 / 60 : Nat) : Int)).toNat = m / 60 / 60 := by omega
    have e2 : (((m / 60 % 60 : Nat) : Int) + 1).toNat = m / 60 % 60 + 1 := by omega
    rw [e1, e2]
  · rw [if_neg (fun hx => hc (hcond.mp hx)), if_neg hc,
      writeDoubleDigitInt_nonneg (by omega), writeDoubleDigitInt_nonneg (by omega)]
    have e1 : (((m / 60 / 60 : Nat) : Int)).toNat = m / 60 / 60 := by omega
    have e2 : (((m / 60 % 60 : Nat) : Int)).toNat = m / 60 % 60 := by omega
    rw [e1, e2]

theorem offsetHM_length {s : Int} (h0 : 0 ≤ s) (h1 : s < 86400) : (offsetHM s).length = 5 := by
  obtain ⟨m, rfl⟩ := Int.eq_ofNat_of_zero_le h0
  have hm : m < 86400 := by exact_mod_cast h1
  rw [offsetHM_ofNat]
  have l1 : (writeDoubleDigit (m / 60 / 60)).length = 2 := writeDoubleDigit_length (by omega)
  have l2 : (writeDoubleDigit (if 30 ≤ m % 60 then m / 60 % 60 + 1 else m / 60 % 60)).length = 2 := by
    apply writeDoubleDigit_length
    split <;> omega
  simp [l1, l2]

theorem offsetSuffix_ne_nil (opts : Opt) (od os : Int) : offsetSuffix opts od os ≠ [] := by
  rw [offsetSuffix]
  split
  · split <;> simp
  · simp

theorem offsetSuffix_length {opts : Opt} {od os : Int} (h0 : 0 ≤ os) (h1 : os < 86400) :
    (offsetSuffix opts od os).length ≤ 6 := by
  rw [offsetSuffix]
  by_cases hz : os = 0
  · rw [if_pos hz]
    split <;> simp
  · rw [if_neg hz]
    have hlen : (offsetHM (if od = -1 then 86400 - os else os)).length = 5 := by
      apply offsetHM_length <;> split <;> omega
    simp [hlen]

/-! ### Helper lemmas for DateTime::write_buf -/

theorem write_buf_ok {dt : PyDateTime} (opts : Opt) {od os : Int}
    (hr : resolveOffset dt = Except.ok (od, os)) :
    DateTime.write_buf ⟨dt, opts⟩ =
      Except.ok (writeBody dt opts ++
        (if has_tz dt || opts.naive_utc then offsetSuffix opts od os else [])) := by
  unfold DateTime.write_buf
  rw [hr]

theorem write_buf_err {dt : PyDateTime} (opts : Opt) {e : DateTimeError}
    (hr : resolveOffset dt = Except.error e) :
    DateTime.write_buf ⟨dt, opts⟩ = Except.error e := by
  unfold DateTime.write_buf
  rw [hr]

theorem cond_true_of_or {dt : PyDateTime} {opts : Opt}
    (h : has_tz dt = true ∨ opts.naive_utc = true) :
    (has_tz dt || opts.naive_utc) = true := by
  rcases h with h | h <;> simp [h]

theorem write_buf_nonzero_offset {dt : PyDateTime} {opts : Opt} {out : List Nat}
    {od os : Int}
    (hw : DateTime.write_buf ⟨dt, opts⟩ = Except.ok out)
    (hr : resolveOffset dt = Except.ok (od, os))
    (hor : has_tz dt = true ∨ opts.naive_utc = true)
    (hos : os ≠ 0) :
    out = writeBody dt opts ++
      ((if od = -1 then HYPHEN else PLUS) ::
        offsetHM (if od = -1 then 86400 - os else os)) := by
  rw [write_buf_ok opts hr, cond_true_of_or hor] at hw
  rw [offsetSuffix, if_neg hos] at hw
  simp at hw
  exact hw.symm

/-! ### Claim theorems: calendar formatter -/

/-- C1: every successful DateTime::write_buf output carries a UTC-offset
suffix if and only if the value is aware or NAIVE_UTC is set, and when
the resolved offset's second component is exactly zero the suffix is the
single byte Z under UTC_Z, else the six bytes "+00:00". -/
theorem C1_offset_suffix_condition (dt : PyDateTime) (opts : Opt) (out : List Nat)
    (hw : DateTime.write_buf ⟨dt, opts⟩ = Except.ok out) :
    (¬(has_tz dt = true ∨ opts.naive_utc = true) → out = writeBody dt opts) ∧
    (∀ od os : Int, resolveOffset dt = Except.ok (od, os) →
      (has_tz dt = true ∨ opts.naive_utc = true) →
      out = writeBody dt opts ++ offsetSuffix opts od os ∧ offsetSuffix opts od os ≠ []) ∧
    (∀ od os : Int, resolveOffset dt = Except.ok (od, os) →
      (has_tz dt = true ∨ opts.naive_utc = true) → os = 0 →
      out = writeBody dt opts ++
        (if opts.utc_z = true then [Z] else [PLUS, ZERO, ZERO, COLON, ZERO, ZERO])) := by
  refine ⟨?_, ?_, ?_⟩
  · intro hnc
    cases hres : resolveOffset dt with
    | error e =>
      rw [write_buf_err opts hres] at hw
      cases hw
    | ok p =>
      obtain ⟨od, os⟩ := p
      rw [write_buf_ok opts hres] at hw
      have hcond : (has_tz dt || opts.naive_utc) = false := by
        cases h1 : has_tz dt <;> cases h2 : opts.naive_utc <;> simp_all
      rw [hcond] at hw
      simp at hw
      exact hw.symm
  · intro od os hres hor
    rw [write_buf_ok opts hres, cond_true_of_or hor] at hw
    simp at hw
    exact ⟨hw.symm, offsetSuffix_ne_nil opts od os⟩
  · intro od os hres hor hz
    rw [write_buf_ok opts hres, cond_true_of_or hor] at hw
    subst hz
    rw [offsetSuffix, if_pos rfl] at hw
    simp at hw
    rw [← hw]

theorem C1_offset_suffix_condition_witness :
    (DateTime.write_buf ⟨dtNaiveEx, optsNaiveZ⟩ =
      Except.ok [50, 48, 50, 51, 45, 48, 49, 45, 48, 53, 84,
        48, 57, 58, 48, 53, 58, 48, 48, 90]) ∧
    [50, 48, 50, 51, 45, 48, 49, 45, 48, 53, 84, 48, 57, 58, 48, 53, 58, 48, 48, 90] =
      writeBody dtNaiveEx optsNaiveZ ++
        (if optsNaiveZ.utc_z = true then [Z] else [PLUS, ZERO, ZERO, COLON, ZERO, ZERO]) :=
  ⟨rfl,
    (C1_offset_suffix_condition dtNaiveEx optsNaiveZ
      [50, 48, 50, 51, 45, 48, 49, 45, 48, 53, 84, 48, 57, 58, 48, 53, 58, 48, 48, 90]
      rfl).2.2 0 0 rfl (Or.inr rfl) rfl⟩

/-- C2: for a successful DateTime::write_buf run with a non-zero resolved
offset, the sign byte is a hyphen exactly when offset_day is -1 (else a
plus), and in the negative case the second count used to derive the
hour/minute digits is 86400 - offset_second. -/
theorem C2_offset_sign_correction (dt : PyDateTime) (opts : Opt) (out : List Nat)
    (od os : Int)
    (hw : DateTime.write_buf ⟨dt, opts⟩ = Except.ok out)
    (hr : resolveOffset dt = Except.ok (od, os))
    (hor : has_tz dt = true ∨ opts.naive_utc = true)
    (hos : os ≠ 0) :
    out = writeBody dt opts ++
      ((if od = -1 then HYPHEN else PLUS) ::
        offsetHM (if od = -1 then 86400 - os else os)) :=
  write_buf_nonzero_offset hw hr hor hos

theorem C2_offset_sign_correction_witness :
    (DateTime.write_buf ⟨dtAware ⟨0, 37800⟩, optsPlain⟩ =
      Except.ok [50, 48, 50, 51, 45, 48, 49, 45, 48, 53, 84, 48, 57, 58, 48, 53, 58, 48, 48,
        43, 49, 48, 58, 51, 48]) ∧
    [50, 48, 50, 51, 45, 48, 49, 45, 48, 53, 84, 48, 57, 58, 48, 53, 58, 48, 48,
        43, 49, 48, 58, 51, 48] =
      writeBody (dtAware ⟨0, 37800⟩) optsPlain ++
        ((if (0 : Int) = -1 then HYPHEN else PLUS) ::
          offsetHM (if (0 : Int) = -1 then 86400 - 37800 else 37800)) ∧
    (DateTime.write_buf ⟨dtAware ⟨-1, 68400⟩, optsPlain⟩ =
      Except.ok [50, 48, 50, 51, 45, 48, 49, 45, 48, 53, 84, 48, 57, 58, 48, 53, 58, 48, 48,
        45, 48, 53, 58, 48, 48]) ∧
    [50, 48, 50, 51, 45, 48, 49, 45, 48, 53, 84, 48, 57, 58, 48, 53, 58, 48, 48,
        45, 48, 53, 58, 48, 48] =
      writeBody (dtAware ⟨-1, 68400⟩) optsPlain ++
        ((if (-1 : Int) = -1 then HYPHEN else PLUS) ::
          offsetHM (if (-1 : Int) = -1 then 86400 - 68400 else 68400)) :=
  ⟨rfl,
    C2_offset_sign_correction (dtAware ⟨0, 37800⟩) optsPlain
      [50, 48, 50, 51, 45, 48, 49, 45, 48, 53, 84, 48, 57, 58, 48, 53, 58, 48, 48,
        43, 49, 48, 58, 51, 48] 0 37800 rfl rfl (Or.inl rfl) (by decide),
    rfl,
    C2_offset_sign_correction (dtAware ⟨-1, 68400⟩) optsPlain
      [50, 48, 50, 51, 45, 48, 49, 45, 48, 53, 84, 48, 57, 58, 48, 53, 58, 48, 48,
        45, 48, 53, 58, 48, 48] (-1) 68400 rfl rfl (Or.inl rfl) (by decide)⟩

/-- C3: when the sign-corrected second count of a non-zero offset has a
sub-minute remainder of at least 30 seconds, the printed minute field is
incremented by exactly one while the hour field stays the plain quotient
of the corrected seconds (no rollover into the hour), so a printed minute
value of 60 is reachable. -/
theorem C3_minute_rounding (dt : PyDateTime) (opts : Opt) (out : List Nat)
    (od os s' : Int)
    (hw : DateTime.write_buf ⟨dt, opts⟩ = Except.ok out)
    (hr : resolveOffset dt = Except.ok (od, os))
    (hor : has_tz dt = true ∨ opts.naive_utc = true)
    (hos : os ≠ 0)
    (hs' : s' = if od = -1 then 86400 - os else os)
    (hrange : 0 ≤ os ∧ os < 86400)
    (hrem : 30 ≤ s' % 60) :
    out = writeBody dt opts ++
      ((if od = -1 then HYPHEN else PLUS) ::
        (writeDoubleDigitInt ((s'.tdiv 60).tdiv 60) ++ [COLON] ++
          writeDoubleDigitInt ((s'.tdiv 60).tmod 60 + 1))) := by
  rw [write_buf_nonzero_offset hw hr hor hos, ← hs']
  have hpos : 0 ≤ s' := by
    rw [hs']
    split <;> omega
  obtain ⟨m, rfl⟩ := Int.eq_ofNat_of_zero_le hpos
  have hd1 : Int.tdiv (m : Int) 60 = ((m / 60 : Nat) : Int) := by norm_cast
  have hd2 : Int.tdiv ((m / 60 : Nat) : Int) 60 = ((m / 60 / 60 : Nat) : Int) := by norm_cast
  have hm1 : Int.tmod ((m / 60 : Nat) : Int) 60 = ((m / 60 % 60 : Nat) : Int) := by norm_cast
  have hremN : 30 ≤ m % 60 := by omega
  rw [offsetHM_ofNat, if_pos hremN, hd1, hd2, hm1,
    writeDoubleDigitInt_nonneg (by omega), writeDoubleDigitInt_nonneg (by omega)]
  have e1 : (((m / 60 / 60 : Nat) : Int)).toNat = m / 60 / 60 := by omega
  have e2 : (((m / 60 % 60 : Nat) : Int) + 1).toNat = m / 60 % 60 + 1 := by omega
  rw [e1, e2]

theorem C3_minute_rounding_witness :
    (DateTime.write_buf ⟨dtAware ⟨0, 3570⟩, optsPlain⟩ =
      Except.ok [50, 48, 50, 51, 45, 48, 49, 45, 48, 53, 84, 48, 57, 58, 48, 53, 58, 48, 48,
        43, 48, 48, 58, 54, 48]) ∧
    [50, 48, 50, 51, 45, 48, 49, 45, 48, 53, 84, 48, 57, 58, 48, 53, 58, 48, 48,
        43, 48, 48, 58, 54, 48] =
      writeBody (dtAware ⟨0, 3570⟩) optsPlain ++
        ((if (0 : Int) = -1 then HYPHEN else PLUS) ::
          (writeDoubleDigitInt ((Int.tdiv (3570 : Int) 60).tdiv 60) ++ [COLON] ++
            writeDoubleDigitInt ((Int.tdiv (3570 : Int) 60).tmod 60 + 1))) :=
  ⟨rfl,
    C3_minute_rounding (dtAware ⟨0, 3570⟩) optsPlain
      [50, 48, 50, 51, 45, 48, 49, 45, 48, 53, 84, 48, 57, 58, 48, 53, 58, 48, 48,
        43, 48, 48, 58, 54, 48] 0 3570 3570 rfl rfl (Or.inl rfl) (by decide) rfl
      (by constructor <;> decide) (by decide)⟩

/-- C4: an aware datetime's timezone object is probed in the exact
priority order conversion-capability, then normalize-capability, then
daylight-saving-capability; the offset obtained is respectively the
datetime's own utcoffset, the utcoffset of the normalized result, and
the timezone's utcoffset of the datetime; with no recognized capability
write_buf fails with LibraryUnsupported and produces no output. -/
theorem C4_tz_probe_priority (dt : PyDateTime) (tz : TzInfo) (opts : Opt)
    (ht : dt.tzinfo = some tz) :
    (tz.hasConvert = true →
      DateTime.write_buf ⟨dt, opts⟩ =
        Except.ok (writeBody dt opts ++
          offsetSuffix opts dt.utcoffset.days dt.utcoffset.seconds)) ∧
    (tz.hasConvert = false → tz.hasNormalize = true →
      DateTime.write_buf ⟨dt, opts⟩ =
        Except.ok (writeBody dt opts ++
          offsetSuffix opts tz.normalizedUtcoffset.days tz.normalizedUtcoffset.seconds)) ∧
    (tz.hasConvert = false → tz.hasNormalize = false → tz.hasDst = true →
      DateTime.write_buf ⟨dt, opts⟩ =
        Except.ok (writeBody dt opts ++
          offsetSuffix opts tz.utcoffsetWithArg.days tz.utcoffsetWithArg.seconds)) ∧
    (tz.hasConvert = false → tz.hasNormalize = false → tz.hasDst = false →
      DateTime.write_buf ⟨dt, opts⟩ = Except.error DateTimeError.LibraryUnsupported) := by
  have htz : has_tz dt = true := by rw [has_tz, ht]; rfl
  refine ⟨?_, ?_, ?_, ?_⟩
  · intro h1
    have hres : resolveOffset dt = Except.ok (dt.utcoffset.days, dt.utcoffset.seconds) := by
      rw [resolveOffset, ht]
      simp [h1]
    rw [write_buf_ok opts hres, htz]
    simp
  · intro h1 h2
    have hres : resolveOffset dt =
        Except.ok (tz.normalizedUtcoffset.days, tz.normalizedUtcoffset.seconds) := by
      rw [resolveOffset, ht]
      simp [h1, h2]
    rw [write_buf_ok opts hres, htz]
    simp
  · intro h1 h2 h3
    have hres : resolveOffset dt =
        Except.ok (tz.utcoffsetWithArg.days, tz.utcoffsetWithArg.seconds) := by
      rw [resolveOffset, ht]
      simp [h1, h2, h3]
    rw [write_buf_ok opts hres, htz]
    simp
  · intro h1 h2 h3
    have hres : resolveOffset dt = Except.error DateTimeError.LibraryUnsupported := by
      rw [resolveOffset, ht]
      simp [h1, h2, h3]
    exact write_buf_err opts hres

theorem C4_tz_probe_priority_witness :
    (DateTime.write_buf
        ⟨⟨2023, 1, 5, 9, 5, 0, 0, some (tzNormalize ⟨0, 3600⟩), ⟨0, 0⟩⟩, optsPlain⟩ =
      Except.ok (writeBody ⟨2023, 1, 5, 9, 5, 0, 0, some (tzNormalize ⟨0, 3600⟩), ⟨0, 0⟩⟩ optsPlain ++
        offsetSuffix optsPlain 0 3600)) ∧
    (DateTime.write_buf ⟨⟨2023, 1, 5, 9, 5, 0, 0, some tzNone, ⟨0, 0⟩⟩, optsPlain⟩ =
      Except.error DateTimeError.LibraryUnsupported) :=
  ⟨(C4_tz_probe_priority ⟨2023, 1, 5, 9, 5, 0, 0, some (tzNormalize ⟨0, 3600⟩), ⟨0, 0⟩⟩
      (tzNormalize ⟨0, 3600⟩) optsPlain rfl).2.1 rfl rfl,
    (C4_tz_probe_priority ⟨2023, 1, 5, 9, 5, 0, 0, some tzNone, ⟨0, 0⟩⟩
      tzNone optsPlain rfl).2.2.2 rfl rfl rfl⟩

/-- C7: constructing a Time formatter for a value that carries timezone
information always fails with HasTimezone before any formatting, and a
value without timezone information never fails. -/
theorem C7_time_rejects_tz (t : PyTime) (opts : Opt) :
    (t.hastzinfo = true → Time.new t opts = Except.error TimeError.HasTimezone) ∧
    (t.hastzinfo = false → Time.new t opts = Except.ok ⟨t, opts⟩) := by
  constructor
  · intro h
    rw [Time.new, if_pos (by rw [h])]
  · intro h
    rw [Time.new, if_neg (by rw [h]; exact Bool.false_ne_true)]

theorem C7_time_rejects_tz_witness :
    (Time.new ⟨9, 5, 0, 0, true⟩ optsPlain = Except.error TimeError.HasTimezone) ∧
    (Time.new ⟨9, 5, 0, 0, false⟩ optsPlain = Except.ok ⟨⟨9, 5, 0, 0, false⟩, optsPlain⟩) :=
  ⟨(C7_time_rejects_tz ⟨9, 5, 0, 0, true⟩ optsPlain).1 rfl,
    (C7_time_rejects_tz ⟨9, 5, 0, 0, false⟩ optsPlain).2 rfl⟩

/-- C8: Time::write_buf renders hour, minute and second as two-digit
zero-padded colon-separated fields and appends a period plus the
microseconds zero-padded to exactly six digits precisely when
OMIT_MICROSECONDS is unset and the microsecond component is non-zero. -/
theorem C8_time_format (t : PyTime) (opts : Opt)
    (hh : t.hour < 24) (hm : t.minute < 60) (hs : t.second < 60)
    (hu : t.microsecond < 1000000) :
    Time.write_buf ⟨t, opts⟩ =
      padk 2 t.hour ++ [COLON] ++ padk 2 t.minute ++ [COLON] ++ padk 2 t.second ++
        (if opts.omit_microseconds = false ∧ t.microsecond ≠ 0 then
          PERIOD :: padk 6 t.microsecond
        else []) := by
  rw [show Time.write_buf ⟨t, opts⟩ =
    writeDoubleDigit t.hour ++ [COLON] ++ writeDoubleDigit t.minute ++ [COLON] ++
      writeDoubleDigit t.second ++
      (if opts.omit_microseconds = false then writeMicrosecond t.microsecond else [])
    from rfl]
  rw [writeDoubleDigit_eq_padk (by omega), writeDoubleDigit_eq_padk (by omega),
    writeDoubleDigit_eq_padk (by omega)]
  by_cases ho : opts.omit_microseconds = false
  · by_cases hz : t.microsecond = 0
    · rw [if_pos ho, if_neg (by simp [ho, hz]), hz]
      rw [writeMicrosecond, if_neg (by simp)]
    · rw [if_pos ho, if_pos ⟨ho, hz⟩, writeMicrosecond_eq (by omega) hu]
  · rw [if_neg ho, if_neg (by simp [ho])]

theorem C8_time_format_witness :
    Time.write_buf ⟨⟨9, 5, 0, 250000, false⟩, optsPlain⟩ =
      padk 2 9 ++ [COLON] ++ padk 2 5 ++ [COLON] ++ padk 2 0 ++
        (if optsPlain.omit_microseconds = false ∧ (250000 : Nat) ≠ 0 then
          PERIOD :: padk 6 250000
        else []) ∧
    Time.write_buf ⟨⟨9, 5, 0, 250000, false⟩, optsPlain⟩ =
      [48, 57, 58, 48, 53, 58, 48, 48, 46, 50, 53, 48, 48, 48, 48] :=
  ⟨C8_time_format ⟨9, 5, 0, 250000, false⟩ optsPlain
      (by decide) (by decide) (by decide) (by decide),
    rfl⟩

/-- C9: with calendar-valid fields (year up to four decimal digits,
month, day, hour, minute, second and microsecond in range, resolved
offset seconds nonnegative and below 86400), no Date, Time or DateTime
formatting run produces more than 32 bytes, the capacity of the fixed
formatting buffer. -/
theorem C9_buffer_capacity (d : PyDate) (t : PyTime) (dt : PyDateTime) (o1 o2 : Opt)
    (hdy : d.year < 10000) (hdm : d.month ≤ 12) (hdd : d.day ≤ 31)
    (hth : t.hour < 24) (htm : t.minute < 60) (hts : t.second < 60)
    (htu : t.microsecond < 1000000)
    (hy : dt.year < 10000) (hmo : dt.month ≤ 12) (hd : dt.day ≤ 31) (hho : dt.hour < 24)
    (hmi : dt.minute < 60) (hse : dt.second < 60) (hu : dt.microsecond < 1000000)
    (hoff : ∀ od os : Int, resolveOffset dt = Except.ok (od, os) → 0 ≤ os ∧ os < 86400) :
    (Date.write_buf ⟨d⟩).length ≤ 32 ∧
    (Time.write_buf ⟨t, o1⟩).length ≤ 32 ∧
    ∀ out : List Nat, DateTime.write_buf ⟨dt, o2⟩ = Except.ok out → out.length ≤ 32 := by
  have hten : (10000 : Nat) = 10 ^ 4 := by norm_num
  refine ⟨?_, ?_, ?_⟩
  · have h1 : (itoa d.year).length ≤ 4 := itoa_length_le (by norm_num) (by omega)
    have h2 : (writeDoubleDigit d.month).length = 2 := writeDoubleDigit_length (by omega)
    have h3 : (writeDoubleDigit d.day).length = 2 := writeDoubleDigit_length (by omega)
    rw [show Date.write_buf ⟨d⟩ =
      itoa d.year ++ [HYPHEN] ++ writeDoubleDigit d.month ++ [HYPHEN] ++ writeDoubleDigit d.day
      from rfl]
    simp only [List.length_append, List.length_cons, List.length_nil, h2, h3]
    omega
  · have h1 : (writeDoubleDigit t.hour).length = 2 := writeDoubleDigit_length (by omega)
    have h2 : (writeDoubleDigit t.minute).length = 2 := writeDoubleDigit_length (by omega)
    have h3 : (writeDoubleDigit t.second).length = 2 := writeDoubleDigit_length (by omega)
    have h4 : (if o1.omit_microseconds = false then writeMicrosecond t.microsecond else []).length ≤ 7 := by
      split
      · exact writeMicrosecond_length htu
      · simp
    rw [show Time.write_buf ⟨t, o1⟩ =
      writeDoubleDigit t.hour ++ [COLON] ++ writeDoubleDigit t.minute ++ [COLON] ++
        writeDoubleDigit t.second ++
        (if o1.omit_microseconds = false then writeMicrosecond t.microsecond else []) from rfl]
    simp only [List.length_append, List.length_cons, List.length_nil, h1, h2, h3]
    omega
  · intro out hw
    cases hres : resolveOffset dt with
    | error e =>
      rw [write_buf_err o2 hres] at hw
      cases hw
    | ok p =>
      obtain ⟨od, os⟩ := p
      rw [write_buf_ok o2 hres] at hw
      injection hw with hw
      subst hw
      obtain ⟨hos0, hos1⟩ := hoff od os hres
      have hbody : (writeBody dt o2).length ≤ 26 := by
        have h1 : (itoa dt.year).length ≤ 4 := itoa_length_le (by norm_num) (by omega)
        have h2 : (writeDoubleDigit dt.month).length = 2 := writeDoubleDigit_length (by omega)
        have h3 : (writeDoubleDigit dt.day).length = 2 := writeDoubleDigit_length (by omega)
        have h4 : (writeDoubleDigit dt.hour).length = 2 := writeDoubleDigit_length (by omega)
        have h5 : (writeDoubleDigit dt.minute).length = 2 := writeDoubleDigit_length (by omega)
        have h6 : (writeDoubleDigit dt.second).length = 2 := writeDoubleDigit_length (by omega)
        have h7 : (if o2.omit_microseconds = false then writeMicrosecond dt.microsecond else []).length ≤ 7 := by
          split
          · exact writeMicrosecond_length hu
          · simp
        rw [writeBody]
        simp only [List.length_append, List.length_cons, List.length_nil, h2, h3, h4, h5, h6]
        omega
      have hsuf : (if has_tz dt || o2.naive_utc then offsetSuffix o2 od os else []).length ≤ 6 := by
        split
        · exact offsetSuffix_length hos0 hos1
        · simp
      simp only [List.length_append]
      omega

theorem C9_buffer_capacity_witness :
    (Date.write_buf ⟨⟨9999, 12, 31⟩⟩).length ≤ 32 ∧
    (Time.write_buf ⟨⟨23, 59, 59, 999999, false⟩, optsPlain⟩).length ≤ 32 ∧
    (writeBody ⟨9999, 12, 31, 23, 59, 59, 999999, some tzConvert, ⟨0, 37800⟩⟩ optsPlain ++
        offsetSuffix optsPlain 0 37800).length = 32 ∧
    (writeBody ⟨9999, 12, 31, 23, 59, 59, 999999, some tzConvert, ⟨0, 37800⟩⟩ optsPlain ++
        offsetSuffix optsPlain 0 37800).length ≤ 32 :=
  ⟨(C9_buffer_capacity ⟨9999, 12, 31⟩ ⟨23, 59, 59, 999999, false⟩
      ⟨9999, 12, 31, 23, 59, 59, 999999, some tzConvert, ⟨0, 37800⟩⟩ optsPlain optsPlain
      (by decide) (by decide) (by decide) (by decide) (by decide) (by decide) (by decide)
      (by decide) (by decide) (by decide) (by decide) (by decide) (by decide) (by decide)
      (by intro od os h
          rw [show resolveOffset ⟨9999, 12, 31, 23, 59, 59, 999999, some tzConvert, ⟨0, 37800⟩⟩ =
            Except.ok ((0 : Int), (37800 : Int)) from rfl] at h
          simp only [Except.ok.injEq, Prod.mk.injEq] at h
          obtain ⟨h1, h2⟩ := h
          subst h1
          subst h2
          constructor <;> decide)).1,
    (C9_buffer_capacity ⟨9999, 12, 31⟩ ⟨23, 59, 59, 999999, false⟩
      ⟨9999, 12, 31, 23, 59, 59, 999999, some tzConvert, ⟨0, 37800⟩⟩ optsPlain optsPlain
      (by decide) (by decide) (by decide) (by decide) (by decide) (by decide) (by decide)
      (by decide) (by decide) (by decide) (by decide) (by decide) (by decide) (by decide)
      (by intro od os h
          rw [show resolveOffset ⟨9999, 12, 31, 23, 59, 59, 999999, some tzConvert, ⟨0, 37800⟩⟩ =
            Except.ok ((0 : Int), (37800 : Int)) from rfl] at h
          simp only [Except.ok.injEq, Prod.mk.injEq] at h
          obtain ⟨h1, h2⟩ := h
          subst h1
          subst h2
          constructor <;> decide)).2.1,
    rfl,
    (C9_buffer_capacity ⟨9999, 12, 31⟩ ⟨23, 59, 59, 999999, false⟩
      ⟨9999, 12, 31, 23, 59, 59, 999999, some tzConvert, ⟨0, 37800⟩⟩ optsPlain optsPlain
      (by decide) (by decide) (by decide) (by decide) (by decide) (by decide) (by decide)
      (by decide) (by decide) (by decide) (by decide) (by decide) (by decide) (by decide)
      (by intro od os h
          rw [show resolveOffset ⟨9999, 12, 31, 23, 59, 59, 999999, some tzConvert, ⟨0, 37800⟩⟩ =
            Except.ok ((0 : Int), (37800 : Int)) from rfl] at h
          simp only [Except.ok.injEq, Prod.mk.injEq] at h
          obtain ⟨h1, h2⟩ := h
          subst h1
          subst h2
          constructor <;> decide)).2.2
      (writeBody ⟨9999, 12, 31, 23, 59, 59, 999999, some tzConvert, ⟨0, 37800⟩⟩ optsPlain ++
        offsetSuffix optsPlain 0 37800) rfl⟩

/-! ### Claim theorems: decode engine -/

/-- C5: the decode entry point fails with the canonical invalid-string
error on any byte-like input that is not valid UTF-8 over its full
length (wherever the invalid byte occurs), with a type error on input
that is neither text nor byte-like, and with a syntax error when the
root value parses but is followed by trailing non-whitespace content. -/
theorem C5_decode_error_cases (wy : List Nat → Nat) (sh : Nat → Nat) (hs : List Nat → Int)
    (st : St) :
    (∀ b : List Nat, utf8ValidUpTo b ≠ b.length →
      deserialize wy sh hs st (PyInput.pybytes b) = Except.error DecodeError.invalidStr ∧
      deserialize wy sh hs st (PyInput.pybytearray b) = Except.error DecodeError.invalidStr) ∧
    deserialize wy sh hs st PyInput.other = Except.error DecodeError.inputType ∧
    (∀ (b : List Nat) (v : PyVal) (st1 : St) (rest : List Nat),
      utf8ValidUpTo b = b.length →
      parseVal wy sh hs (parseFuel b) st b = some ((v, st1), rest) →
      rest.dropWhile isWs ≠ [] →
      deserialize wy sh hs st (PyInput.pybytes b) = Except.error DecodeError.synTrailing) := by
  refine ⟨?_, rfl, ?_⟩
  · intro b hb
    constructor
    · show (if utf8ValidUpTo b = b.length then runParse wy sh hs st b
        else Except.error DecodeError.invalidStr) = Except.error DecodeError.invalidStr
      rw [if_neg hb]
    · show (if utf8ValidUpTo b = b.length then runParse wy sh hs st b
        else Except.error DecodeError.invalidStr) = Except.error DecodeError.invalidStr
      rw [if_neg hb]
  · intro b v st1 rest hb hp hr
    show (if utf8ValidUpTo b = b.length then runParse wy sh hs st b
      else Except.error DecodeError.invalidStr) = Except.error DecodeError.synTrailing
    rw [if_pos hb, runParse, hp]
    simp only [if_neg hr]

theorem C5_decode_error_cases_witness :
    ((deserialize (fun _ => 0) (fun n => n) (fun _ => 0) initSt (PyInput.pybytes [255]) =
        Except.error DecodeError.invalidStr ∧
      deserialize (fun _ => 0) (fun n => n) (fun _ => 0) initSt (PyInput.pybytearray [255]) =
        Except.error DecodeError.invalidStr) ∧
      deserialize (fun _ => 0) (fun n => n) (fun _ => 0) initSt PyInput.other =
        Except.error DecodeError.inputType) ∧
    deserialize (fun _ => 0) (fun n => n) (fun _ => 0) initSt (PyInput.pybytes [49, 32, 120]) =
      Except.error DecodeError.synTrailing :=
  ⟨⟨(C5_decode_error_cases (fun _ => 0) (fun n => n) (fun _ => 0) initSt).1 [255] (by decide),
    (C5_decode_error_cases (fun _ => 0) (fun n => n) (fun _ => 0) initSt).2.1⟩,
    (C5_decode_error_cases (fun _ => 0) (fun n => n) (fun _ => 0) initSt).2.2
      [49, 32, 120] (PyVal.int 1) initSt [32, 120] (by decide) rfl (by decide)⟩

/-- C6: a key of byte length at most 64 is resolved through the
interned-key cache and a hit (slot occupied with matching stored hash)
returns the cached object id and memoized native hash with the state
unchanged (no new string); a key longer than 64 bytes never touches the
cache (its result is independent of the cache and the cache is left
unchanged) and is constructed fresh with its hash computed on the spot;
after resolving any short key, its slot holds exactly the returned
object and hash under the key's wyhash. -/
theorem C6_key_cache_policy (wy : List Nat → Nat) (sh : Nat → Nat) (hs : List Nat → Int)
    (key : List Nat) (st : St) :
    (∀ slot : Slot, key.length ≤ 64 → st.cache (sh (wy key) % 512) = some slot →
      slot.wyh = wy key → resolveKey wy sh hs key st = ((slot.objId, slot.pyhash), st)) ∧
    (key.length > 64 →
      resolveKey wy sh hs key st =
        ((st.nextId, hs key), ⟨st.nextId + 1, (st.nextId, key) :: st.heap, st.cache⟩)) ∧
    (∀ c1 c2 : Nat → Option Slot, key.length > 64 →
      (resolveKey wy sh hs key ⟨st.nextId, st.heap, c1⟩).1 =
        (resolveKey wy sh hs key ⟨st.nextId, st.heap, c2⟩).1) ∧
    (key.length ≤ 64 →
      (resolveKey wy sh hs key st).2.cache (sh (wy key) % 512) =
        some ⟨wy key, (resolveKey wy sh hs key st).1.1, (resolveKey wy sh hs key st).1.2⟩) := by
  refine ⟨?_, ?_, ?_, ?_⟩
  · intro slot hl hc hwh
    rw [resolveKey, if_neg (by omega)]
    simp [hc, hwh]
  · intro hl
    rw [resolveKey, if_pos hl]
    rfl
  · intro c1 c2 hl
    rw [resolveKey, if_pos hl, resolveKey, if_pos hl]
    rfl
  · intro hl
    rw [resolveKey, if_neg (by omega)]
    cases hc : st.cache (sh (wy key) % 512) with
    | none => simp [hc]
    | some slot =>
      by_cases hwh : slot.wyh = wy key
      · simp only [hc, if_pos hwh]
        rw [← hwh]
      · simp only [hc, if_neg hwh]
        simp

theorem C6_key_cache_policy_witness :
    (resolveKey (fun _ => 42) (fun n => n) (fun _ => 0) [97]
        ⟨5, [(3, [97])], fun i => if i = 42 then some ⟨42, 3, 77⟩ else none⟩ =
      ((3, 77), ⟨5, [(3, [97])], fun i => if i = 42 then some ⟨42, 3, 77⟩ else none⟩)) ∧
    (resolveKey (fun _ => 42) (fun n => n) (fun _ => 0) (List.replicate 65 97)
        ⟨5, [(3, [97])], fun i => if i = 42 then some ⟨42, 3, 77⟩ else none⟩ =
      ((5, 0), ⟨6, (5, List.replicate 65 97) :: [(3, [97])],
        fun i => if i = 42 then some ⟨42, 3, 77⟩ else none⟩)) :=
  ⟨(C6_key_cache_policy (fun _ => 42) (fun n => n) (fun _ => 0) [97]
      ⟨5, [(3, [97])], fun i => if i = 42 then some ⟨42, 3, 77⟩ else none⟩).1
      ⟨42, 3, 77⟩ (by decide) rfl rfl,
    (C6_key_cache_policy (fun _ => 42) (fun n => n) (fun _ => 0) (List.replicate 65 97)
      ⟨5, [(3, [97])], fun i => if i = 42 then some ⟨42, 3, 77⟩ else none⟩).2.1
      (by decide)⟩

/-- C10: the interned-key cache hit test compares only stored and looked
up 64-bit hashes, never the key bytes: for two distinct short keys with
equal wyhash values, resolving the first from a state whose target slot
is empty and then resolving the second returns the first key's cached
object id and memoized hash for the second key as well, without any new
construction, so the second document's key object holds the first key's
text. -/
theorem C10_hash_only_hit (wy : List Nat → Nat) (sh : Nat → Nat) (hs : List Nat → Int)
    (k1 k2 : List Nat) (st : St)
    (hne : k1 ≠ k2) (hl1 : k1.length ≤ 64) (hl2 : k2.length ≤ 64)
    (hh : wy k1 = wy k2)
    (hempty : st.cache (sh (wy k1) % 512) = none) :
    (resolveKey wy sh hs k2 (resolveKey wy sh hs k1 st).2).1 =
      (resolveKey wy sh hs k1 st).1 ∧
    (resolveKey wy sh hs k2 (resolveKey wy sh hs k1 st).2).2 =
      (resolveKey wy sh hs k1 st).2 ∧
    heapGet (resolveKey wy sh hs k1 st).2 (resolveKey wy sh hs k1 st).1.1 = some k1 ∧
    heapGet (resolveKey wy sh hs k1 st).2 (resolveKey wy sh hs k1 st).1.1 ≠ some k2 := by
  have h1 : resolveKey wy sh hs k1 st =
      ((st.nextId, hs k1),
        ⟨st.nextId + 1, (st.nextId, k1) :: st.heap,
          fun i => if i = sh (wy k1) % 512 then some ⟨wy k1, st.nextId, hs k1⟩
            else st.cache i⟩) := by
    rw [resolveKey, if_neg (by omega)]
    simp only [hempty]
    rfl
  have h2 : resolveKey wy sh hs k2 (resolveKey wy sh hs k1 st).2 =
      ((st.nextId, hs k1), (resolveKey wy sh hs k1 st).2) := by
    rw [h1]
    rw [resolveKey, if_neg (by omega)]
    simp [← hh]
  have h3 : heapGet (resolveKey wy sh hs k1 st).2 (resolveKey wy sh hs k1 st).1.1 = some k1 := by
    rw [h1, heapGet]
    simp [List.lookup]
  refine ⟨?_, ?_, h3, ?_⟩
  · rw [h2, h1]
  · rw [h2]
  · rw [h3]
    intro hcontra
    exact hne (Option.some.inj hcontra)

theorem C10_hash_only_hit_witness :
    ((resolveKey (fun _ => 7) (fun n => n) (fun l => (l.length : Int)) [98]
        (resolveKey (fun _ => 7) (fun n => n) (fun l => (l.length : Int)) [97] initSt).2).1 =
      (resolveKey (fun _ => 7) (fun n => n) (fun l => (l.length : Int)) [97] initSt).1) ∧
    heapGet (resolveKey (fun _ => 7) (fun n => n) (fun l => (l.length : Int)) [97] initSt).2
        (resolveKey (fun _ => 7) (fun n => n) (fun l => (l.length : Int)) [97] initSt).1.1 =
      some [97] :=
  ⟨(C10_hash_only_hit (fun _ => 7) (fun n => n) (fun l => (l.length : Int)) [97] [98] initSt
      (by decide) (by decide) (by decide) rfl rfl).1,
    (C10_hash_only_hit (fun _ => 7) (fun n => n) (fun l => (l.length : Int)) [97] [98] initSt
      (by decide) (by decide) (by decide) rfl rfl).2.2.1⟩

end Orjson
